import Mathlib

/-!
Verification of the WhatsApp tutoring bot's orchestration core
(`src/services`): error taxonomy, audio size validation, the session
registry, response-text extraction, the transcription language-detection
policy, the lexical language heuristic, outbound retry, recipient-address
formatting, and the message orchestrator's classification and recovery
behaviour.  JavaScript functions are embedded shallowly: fallible
operations return `Except Err`, the in-memory `Map` of sessions becomes an
association list, external SDK calls become oracle parameters, and the
sequence of adapter invocations is made observable as an explicit trace.
-/

set_option maxRecDepth 4096

namespace WhatsTutor

/-! ## Error taxonomy (src/utils/errorHandler.js)

Each error class carries a message, an HTTP status code and the
`isOperational` flag set by the `AppError` base constructor. -/

inductive ErrKind where
  | app
  | validation
  | audioProcessing
  | whatsapp
  | dialogflow
  deriving DecidableEq, Repr

structure Err where
  kind : ErrKind
  message : String
  statusCode : Nat
  isOperational : Bool
  deriving DecidableEq, Repr

/-- `new AppError(message, statusCode)`: `isOperational` is always true. -/
def AppError (message : String) (statusCode : Nat) : Err :=
  ⟨.app, message, statusCode, true⟩

/-- `new ValidationError(message)`: status 400, operational. -/
def ValidationError (message : String) : Err :=
  ⟨.validation, message, 400, true⟩

/-- `new AudioProcessingError(message)`: status 422, operational. -/
def AudioProcessingError (message : String) : Err :=
  ⟨.audioProcessing, message, 422, true⟩

/-- `new WhatsAppError(message)`: status 502, operational. -/
def WhatsAppError (message : String) : Err :=
  ⟨.whatsapp, message, 502, true⟩

/-- `new DialogflowError(message)`: status 503, operational. -/
def DialogflowError (message : String) : Err :=
  ⟨.dialogflow, message, 503, true⟩

/-! ## Audio size validation (src/services/audioProcessor.js, validateAudioSize)

An audio payload is a byte buffer; only its length matters here, so the
buffer is a `List Nat` of bytes.  `config.app.maxAudioSize` defaults to
16777216 bytes (16 MiB). -/

/-- Default of `config.app.maxAudioSize`: 16 MiB in bytes. -/
def defaultMaxAudioSize : Nat := 16777216

/-- The interpolated message of the too-large error:
`Archivo de audio demasiado grande. El tamaño máximo es [maxSize/1024/1024]MB`. -/
def audioTooLargeMessage (maxSize : Nat) : String :=
  "Archivo de audio demasiado grande. El tamaño máximo es " ++
    toString (maxSize / 1024 / 1024) ++ "MB"

/-- `validateAudioSize(audioBuffer)`: throws `AudioProcessingError` when
`audioBuffer.length > config.app.maxAudioSize`, else returns `true`.
The configured ceiling is passed explicitly. -/
def validateAudioSize (audioBuffer : List Nat) (maxSize : Nat) : Except Err Bool :=
  let size := audioBuffer.length
  if size > maxSize then
    .error (AudioProcessingError (audioTooLargeMessage maxSize))
  else
    .ok true

/-! ## Recipient-address formatting (src/services/whatsappClient.js, formatWhatsAppNumber)

Phone numbers are modelled as lists of characters; `String.startsWith` is
embedded as a direct prefix test on the character list. -/

/-- `listStartsWith pat s`: does `s` start with `pat`?  Embeds JavaScript
`s.startsWith(pat)`. -/
def listStartsWith : List Char → List Char → Bool
  | [], _ => true
  | _ :: _, [] => false
  | p :: ps, c :: cs => p == c && listStartsWith ps cs

/-- The characters of the `whatsapp:` gateway address scheme. -/
def waScheme : List Char := "whatsapp:".data

/-- `formatWhatsAppNumber(number)`: return `number` unchanged when it already
starts with `whatsapp:`, otherwise prepend the scheme. -/
def formatWhatsAppNumber (number : List Char) : List Char :=
  if listStartsWith waScheme number then number
  else waScheme ++ number

theorem listStartsWith_append (p s : List Char) :
    listStartsWith p (p ++ s) = true := by
  induction p with
  | nil => rfl
  | cons c cs ih => simp [listStartsWith, ih]

/-! ## Session registry (src/services/dialogflow.js)

`this.sessions` is a JavaScript `Map` from user id to session id, embedded
as an association list whose keys are unique (a `Map` stores each key at
most once; insertions on a fresh key append, insertions on a present key
overwrite in place). -/

abbrev SessionMap := List (String × String)

/-- `Map.prototype.get`: the value stored at `k`, if any. -/
def mapGet (m : SessionMap) (k : String) : Option String :=
  match m with
  | [] => none
  | (k', v') :: rest => if k' == k then some v' else mapGet rest k

/-- `Map.prototype.has`. -/
def mapHas (m : SessionMap) (k : String) : Bool :=
  (mapGet m k).isSome

/-- `Map.prototype.set`: overwrite the entry holding `k` if present,
otherwise append a new entry. -/
def mapSet (m : SessionMap) (k v : String) : SessionMap :=
  match m with
  | [] => [(k, v)]
  | (k', v') :: rest =>
      if k' == k then (k, v) :: rest else (k', v') :: mapSet rest k v

/-- `Map.prototype.delete`: remove the entry holding `k`. -/
def mapDelete (m : SessionMap) (k : String) : SessionMap :=
  match m with
  | [] => []
  | (k', v') :: rest =>
      if k' == k then rest else (k', v') :: mapDelete rest k

/-- The registry invariant a JavaScript `Map` maintains: each key occurs at
most once (no earlier entry shadows a later one). -/
def NodupKeys : SessionMap → Prop
  | [] => True
  | (k, _) :: rest => mapGet rest k = none ∧ NodupKeys rest

instance instDecNodupKeys : (m : SessionMap) → Decidable (NodupKeys m)
  | [] => .isTrue trivial
  | (k, _) :: rest =>
      have : Decidable (NodupKeys rest) := instDecNodupKeys rest
      inferInstanceAs (Decidable (mapGet rest k = none ∧ NodupKeys rest))

/-- Number of entries the registry holds for one sender. -/
def countKey (m : SessionMap) (k : String) : Nat :=
  match m with
  | [] => 0
  | (k', _) :: rest => (if k' == k then 1 else 0) + countKey rest k

/-- `getSessionId(userId)`: when no mapping exists, store a freshly generated
identifier (the `uuidv4()` draw is the explicit `fresh` parameter) and
return `this.sessions.get(userId)`.  The pair is the returned value and the
updated registry. -/
def getSessionId (m : SessionMap) (fresh : String) (userId : String) :
    Option String × SessionMap :=
  let m' := if mapHas m userId then m else mapSet m userId fresh
  (mapGet m' userId, m')

/-- `clearSession(userId)`: delete the mapping when present, do nothing
otherwise. -/
def clearSession (m : SessionMap) (userId : String) : SessionMap :=
  if mapHas m userId then mapDelete m userId else m

/-! ### Association-list lemmas for the registry -/

theorem mapGet_mapSet_self (m : SessionMap) (k v : String) :
    mapGet (mapSet m k v) k = some v := by
  induction m with
  | nil => simp [mapSet, mapGet]
  | cons p rest ih =>
      obtain ⟨k', v'⟩ := p
      by_cases h : k' == k
      · simp [mapSet, h, mapGet]
      · have h' : (k' == k) = false := by simpa using h
        simp [mapSet, h', mapGet, ih]

theorem mapGet_mapSet_other (m : SessionMap) (k v k2 : String)
    (h : k ≠ k2) : mapGet (mapSet m k v) k2 = mapGet m k2 := by
  induction m with
  | nil =>
      have hk : (k == k2) = false := by simpa using h
      simp [mapSet, mapGet, hk]
  | cons p rest ih =>
      obtain ⟨k', v'⟩ := p
      by_cases hk : k' == k
      · have hkk : k' = k := by simpa [beq_iff_eq] using hk
        have h2 : (k == k2) = false := by simpa using h
        simp [mapSet, hk, mapGet, hkk, h2]
      · have hk' : (k' == k) = false := by simpa using hk
        simp [mapSet, hk', mapGet, ih]

theorem nodupKeys_mapSet (m : SessionMap) (k v : String)
    (h : NodupKeys m) : NodupKeys (mapSet m k v) := by
  induction m with
  | nil => exact ⟨rfl, trivial⟩
  | cons p rest ih =>
      obtain ⟨k', v'⟩ := p
      obtain ⟨h1, h2⟩ := h
      by_cases hk : k' == k
      · have hkk : k' = k := by simpa [beq_iff_eq] using hk
        subst hkk
        exact (by simpa [mapSet, hk] using ⟨h1, h2⟩ : NodupKeys (mapSet ((k', v') :: rest) k' v))
      · have hk' : (k' == k) = false := by simpa using hk
        have hne : k ≠ k' := fun e => by simp [e] at hk'
        refine (by
          simp only [mapSet, hk', if_false]
          exact ⟨by rw [mapGet_mapSet_other rest k v k' hne]; exact h1, ih h2⟩ :
          NodupKeys (mapSet ((k', v') :: rest) k v))

theorem countKey_eq_zero_of_mapGet_none (m : SessionMap) (k : String)
    (h : mapGet m k = none) : countKey m k = 0 := by
  induction m with
  | nil => rfl
  | cons p rest ih =>
      obtain ⟨k', v'⟩ := p
      by_cases hk : k' == k
      · simp [mapGet, hk] at h
      · have hk' : (k' == k) = false := by simpa using hk
        simp only [mapGet, hk', if_false] at h
        simp [countKey, hk', ih h]

theorem countKey_le_one (m : SessionMap) (k : String)
    (h : NodupKeys m) : countKey m k ≤ 1 := by
  induction m with
  | nil => simp [countKey]
  | cons p rest ih =>
      obtain ⟨k', v'⟩ := p
      obtain ⟨h1, h2⟩ := h
      by_cases hk : k' == k
      · have hkk : k' = k := by simpa [beq_iff_eq] using hk
        have hzero : countKey rest k = 0 :=
          countKey_eq_zero_of_mapGet_none rest k (hkk ▸ h1)
        simp [countKey, hk, hzero]
      · have hk' : (k' == k) = false := by simpa using hk
        simpa [countKey, hk'] using ih h2

theorem mapGet_mapDelete_self (m : SessionMap) (k : String)
    (h : NodupKeys m) : mapGet (mapDelete m k) k = none := by
  induction m with
  | nil => rfl
  | cons p rest ih =>
      obtain ⟨k', v'⟩ := p
      obtain ⟨h1, h2⟩ := h
      by_cases hk : k' == k
      · have hkk : k' = k := by simpa [beq_iff_eq] using hk
        simpa [mapDelete, hk, hkk] using hkk ▸ h1
      · have hk' : (k' == k) = false := by simpa using hk
        simp [mapDelete, hk', mapGet, ih h2]

theorem mapGet_mapDelete_none (m : SessionMap) (k k2 : String)
    (h : mapGet m k2 = none) : mapGet (mapDelete m k) k2 = none := by
  induction m with
  | nil => rfl
  | cons p rest ih =>
      obtain ⟨k', v'⟩ := p
      by_cases hk2 : k' == k2
      · simp [mapGet, hk2] at h
      · have hk2' : (k' == k2) = false := by simpa using hk2
        simp only [mapGet, hk2', if_false] at h
        by_cases hk : k' == k
        · simpa [mapDelete, hk] using h
        · have hk' : (k' == k) = false := by simpa using hk
          simp [mapDelete, hk', mapGet, hk2', ih h]

theorem nodupKeys_mapDelete (m : SessionMap) (k : String)
    (h : NodupKeys m) : NodupKeys (mapDelete m k) := by
  induction m with
  | nil => trivial
  | cons p rest ih =>
      obtain ⟨k', v'⟩ := p
      obtain ⟨h1, h2⟩ := h
      by_cases hk : k' == k
      · simpa [mapDelete, hk] using h2
      · have hk' : (k' == k) = false := by simpa using hk
        exact (by
          simp only [mapDelete, hk', if_false]
          exact ⟨mapGet_mapDelete_none rest k k' h1, ih h2⟩ :
          NodupKeys (mapDelete ((k', v') :: rest) k))

/-! ### Registry helper lemmas for getSessionId -/

theorem getSessionId_fst_eq (m : SessionMap) (fresh userId : String) :
    (getSessionId m fresh userId).1 = mapGet (getSessionId m fresh userId).2 userId := rfl

theorem getSessionId_of_some (m : SessionMap) (fresh userId sid : String)
    (h : mapGet m userId = some sid) :
    getSessionId m fresh userId = (some sid, m) := by
  simp [getSessionId, mapHas, h]

theorem getSessionId_of_none (m : SessionMap) (fresh userId : String)
    (h : mapGet m userId = none) :
    getSessionId m fresh userId = (some fresh, mapSet m userId fresh) := by
  simp [getSessionId, mapHas, h, mapGet_mapSet_self]

theorem getSessionId_get_isSome (m : SessionMap) (fresh userId : String) :
    (mapGet (getSessionId m fresh userId).2 userId).isSome = true := by
  cases h : mapGet m userId with
  | none => rw [getSessionId_of_none m fresh userId h]; simp [mapGet_mapSet_self]
  | some sid => rw [getSessionId_of_some m fresh userId sid h]; simp [h]

theorem nodupKeys_getSessionId (m : SessionMap) (fresh userId : String)
    (h : NodupKeys m) : NodupKeys (getSessionId m fresh userId).2 := by
  cases hm : mapGet m userId with
  | none => rw [getSessionId_of_none m fresh userId hm]; exact nodupKeys_mapSet m userId fresh h
  | some sid => rw [getSessionId_of_some m fresh userId sid hm]; exact h

/-! ## Claim C4, C10, C3, C9 theorems -/

/-- C4: for every audio payload, `validateAudioSize` succeeds iff the payload
length is at most the configured ceiling (default 16777216 bytes = 16 MiB);
a payload of exactly ceiling+1 bytes fails with the audio-too-large
`AudioProcessingError`, and a payload of exactly the ceiling succeeds. -/
theorem validateAudioSize_size_spec (audioBuffer : List Nat) (maxSize : Nat) :
    ((validateAudioSize audioBuffer maxSize).isOk = true ↔
      audioBuffer.length ≤ maxSize) ∧
    (audioBuffer.length = maxSize →
      validateAudioSize audioBuffer maxSize = .ok true) ∧
    (audioBuffer.length = maxSize + 1 →
      validateAudioSize audioBuffer maxSize =
        .error (AudioProcessingError (audioTooLargeMessage maxSize))) ∧
    defaultMaxAudioSize = 16777216 := by
  refine ⟨?_, ?_, ?_, rfl⟩
  · have hiff : (validateAudioSize audioBuffer maxSize).isOk = true ↔
        ¬ audioBuffer.length > maxSize := by
      by_cases h : audioBuffer.length > maxSize <;>
        simp [validateAudioSize, h, Except.isOk, Except.toBool]
    rw [hiff]
    omega
  · intro h
    have : ¬ audioBuffer.length > maxSize := by omega
    simp [validateAudioSize, this]
  · intro h
    have : audioBuffer.length > maxSize := by omega
    simp [validateAudioSize, this]

/-- Witness for C4: a 3-byte payload against a ceiling of 2 bytes is exactly
one byte over, and is rejected with the audio-too-large error. -/
theorem validateAudioSize_size_spec_witness :
    validateAudioSize [7, 7, 7] 2 =
      .error (AudioProcessingError (audioTooLargeMessage 2)) :=
  (validateAudioSize_size_spec [7, 7, 7] 2).2.2.1 (by decide)

/-- C10: the recipient-address formatter is idempotent, and its result always
starts with the `whatsapp:` scheme. -/
theorem formatWhatsAppNumber_idem_scheme (number : List Char) :
    formatWhatsAppNumber (formatWhatsAppNumber number) = formatWhatsAppNumber number ∧
    listStartsWith waScheme (formatWhatsAppNumber number) = true := by
  by_cases h : listStartsWith waScheme number
  · constructor
    · simp [formatWhatsAppNumber, h]
    · simp [formatWhatsAppNumber, h]
  · have h2 := listStartsWith_append waScheme number
    constructor
    · simp [formatWhatsAppNumber, h, h2]
    · simpa [formatWhatsAppNumber, h] using h2

/-- C3: `getSessionId` returns a stored session id unchanged; on a missing
mapping it stores the freshly generated id and returns it; two successive
calls with the same user id agree (value and registry); and the registry
keeps key uniqueness, so it holds at most one session id per sender. -/
theorem getSessionId_registry_spec (m : SessionMap) (fresh1 fresh2 userId : String)
    (h : NodupKeys m) :
    (∀ sid, mapGet m userId = some sid →
      getSessionId m fresh1 userId = (some sid, m)) ∧
    (mapGet m userId = none →
      getSessionId m fresh1 userId = (some fresh1, mapSet m userId fresh1) ∧
      mapGet (getSessionId m fresh1 userId).2 userId = some fresh1) ∧
    (getSessionId (getSessionId m fresh1 userId).2 fresh2 userId).1 =
      (getSessionId m fresh1 userId).1 ∧
    (getSessionId (getSessionId m fresh1 userId).2 fresh2 userId).2 =
      (getSessionId m fresh1 userId).2 ∧
    NodupKeys (getSessionId m fresh1 userId).2 ∧
    countKey (getSessionId m fresh1 userId).2 userId ≤ 1 := by
  have hsome := getSessionId_get_isSome m fresh1 userId
  obtain ⟨x, hx⟩ := Option.isSome_iff_exists.mp hsome
  have hsecond := getSessionId_of_some (getSessionId m fresh1 userId).2 fresh2 userId x hx
  have hnodup1 := nodupKeys_getSessionId m fresh1 userId h
  refine ⟨fun sid hsid => getSessionId_of_some m fresh1 userId sid hsid,
    fun hnone => ⟨getSessionId_of_none m fresh1 userId hnone, ?_⟩, ?_, ?_, hnodup1, ?_⟩
  · rw [getSessionId_of_none m fresh1 userId hnone]
    exact mapGet_mapSet_self m userId fresh1
  · rw [hsecond, getSessionId_fst_eq m fresh1 userId, hx]
  · rw [hsecond]
  · exact countKey_le_one _ userId hnodup1

/-- Witness for C3: starting from the empty registry, the first call stores
the fresh id `s1` for `u1` and returns it. -/
theorem getSessionId_registry_spec_witness :
    getSessionId [] "s1" "u1" = (some "s1", mapSet [] "u1" "s1") ∧
    mapGet (getSessionId [] "s1" "u1").2 "u1" = some "s1" :=
  ((getSessionId_registry_spec [] "s1" "s2" "u1" (by decide)).2.1) rfl

/-- A registry without a mapping for `userId` is left untouched by
`clearSession`. -/
theorem clearSession_of_get_none (m : SessionMap) (userId : String)
    (h : mapGet m userId = none) : clearSession m userId = m := by
  simp [clearSession, mapHas, h]

/-- C9: `clearSession` removes the mapping when present, is a no-op when the
mapping is absent, never fails (it is a total function), and is idempotent:
a second call leaves the registry unchanged. -/
theorem clearSession_idempotent_spec (m : SessionMap) (userId : String)
    (h : NodupKeys m) :
    mapGet (clearSession m userId) userId = none ∧
    (mapGet m userId = none → clearSession m userId = m) ∧
    clearSession (clearSession m userId) userId = clearSession m userId ∧
    NodupKeys (clearSession m userId) := by
  have hgone : mapGet (clearSession m userId) userId = none := by
    cases hm : mapGet m userId with
    | none => simp [clearSession, mapHas, hm]
    | some sid =>
        have : mapHas m userId = true := by simp [mapHas, hm]
        simpa [clearSession, this] using mapGet_mapDelete_self m userId h
  refine ⟨hgone, fun hnone => clearSession_of_get_none m userId hnone, ?_, ?_⟩
  · exact clearSession_of_get_none _ userId hgone
  · cases hm : mapHas m userId with
    | true => simpa [clearSession, hm] using nodupKeys_mapDelete m userId h
    | false => simpa [clearSession, hm] using h

/-- Witness for C9: clearing `u1` from a one-entry registry empties it, and
clearing again is a no-op. -/
theorem clearSession_idempotent_spec_witness :
    mapGet (clearSession [("u1", "s1")] "u1") "u1" = none ∧
    clearSession (clearSession [("u1", "s1")] "u1") "u1" =
      clearSession [("u1", "s1")] "u1" := by
  have h := clearSession_idempotent_spec [("u1", "s1")] "u1" (by decide)
  exact ⟨h.1, h.2.2.1⟩

/-! ## Reply-text extraction (src/services/dialogflow.js, extractResponseText)

A Dialogflow response message carries an optional `text` field whose `text`
member is an array of strings; `msg.text` being absent makes the segment a
non-text segment.  `queryResult.responseMessages` itself may be absent. -/

structure ResponseMessage where
  text : Option (List String)
  deriving DecidableEq, Repr

/-- Fallback returned when `responseMessages` is absent or empty. -/
def fallbackNoResponse : String :=
  "I'm sorry, I didn't understand that. Could you rephrase?"

/-- Fallback returned when the newline-join of the text segments is the empty
string (the `|| ...` branch). -/
def fallbackEmptyJoin : String :=
  "I'm here to help you practice English!"

/-- `extractResponseText(queryResult)`: absent or empty `responseMessages`
yields `fallbackNoResponse`; otherwise the text-bearing segments are kept
(`filter(msg => msg.text)`), their string arrays collected and flattened
(`map(msg => msg.text.text).flat()`), joined with newline, and an empty
join falls back to `fallbackEmptyJoin` (JavaScript `||` on strings). -/
def extractResponseText (responseMessages : Option (List ResponseMessage)) : String :=
  match responseMessages with
  | none => fallbackNoResponse
  | some msgs =>
      if msgs.length = 0 then fallbackNoResponse
      else
        let textResponses :=
          ((msgs.filter (fun msg => msg.text.isSome)).map
            (fun msg => msg.text.getD [])).flatten
        let joined := String.intercalate "\n" textResponses
        if joined = "" then fallbackEmptyJoin else joined

theorem filter_map_text_eq (msgs : List ResponseMessage) :
    (msgs.filter (fun msg => msg.text.isSome)).map (fun msg => msg.text.getD []) =
      msgs.filterMap (fun msg => msg.text) := by
  induction msgs with
  | nil => rfl
  | cons m rest ih =>
      cases h : m.text <;> simp [List.filter_cons, List.filterMap_cons, h, ih]

/-- Counterexample for C5: the claim's fallback string
`I didn't understand that, could you rephrase?` is returned in neither
no-text-segment case.  An empty `responseMessages` array yields
`fallbackNoResponse`, and a nonempty array without any text segment yields
the distinct `fallbackEmptyJoin` — both differ from the claimed string. -/
theorem extractResponseText_claim_counterexample :
    extractResponseText (some []) = fallbackNoResponse ∧
    extractResponseText (some [⟨none⟩]) = fallbackEmptyJoin ∧
    fallbackNoResponse ≠ "I didn't understand that, could you rephrase?" ∧
    fallbackEmptyJoin ≠ "I didn't understand that, could you rephrase?" ∧
    fallbackNoResponse ≠ fallbackEmptyJoin := by
  refine ⟨rfl, rfl, ?_, ?_, ?_⟩ <;> decide

/-- C5 (amended): extraction concatenates all text segments joined by
newline whenever that join is nonempty; an absent or empty
`responseMessages` yields the fallback `fallbackNoResponse`; a nonempty
`responseMessages` whose segments carry no text at all yields the distinct
fallback `fallbackEmptyJoin`. -/
theorem extractResponseText_amended_spec (msgs : List ResponseMessage) :
    extractResponseText none = fallbackNoResponse ∧
    extractResponseText (some []) = fallbackNoResponse ∧
    (msgs ≠ [] → (∀ m ∈ msgs, m.text = none) →
      extractResponseText (some msgs) = fallbackEmptyJoin) ∧
    (msgs ≠ [] →
      String.intercalate "\n" ((msgs.filterMap (fun m => m.text)).flatten) ≠ "" →
      extractResponseText (some msgs) =
        String.intercalate "\n" ((msgs.filterMap (fun m => m.text)).flatten)) := by
  refine ⟨rfl, rfl, ?_, ?_⟩
  · intro hne hall
    have hfm : msgs.filterMap (fun m => m.text) = [] := by
      rw [List.filterMap_eq_nil_iff]
      exact hall
    have hlen : ¬ msgs.length = 0 := by simpa using hne
    simp only [extractResponseText, hlen, if_false, filter_map_text_eq, hfm,
      List.flatten_nil]
    rfl
  · intro hne hjoin
    have hlen : ¬ msgs.length = 0 := by simpa using hne
    simp [extractResponseText, hlen, filter_map_text_eq, hjoin]

/-- Witness for C5 (amended): a single text segment `Hello!` is returned
verbatim. -/
theorem extractResponseText_amended_spec_witness :
    extractResponseText (some [⟨some ["Hello!"]⟩]) =
      String.intercalate "\n"
        (([⟨some ["Hello!"]⟩] : List ResponseMessage).filterMap (fun m => m.text)).flatten :=
  (extractResponseText_amended_spec [⟨some ["Hello!"]⟩]).2.2.2 (by decide) (by decide)

/-! ## Transcription language-detection policy
(src/services/speechToText.js, transcribeWithLanguageDetection)

`transcribe(audioBuffer, languageCode)` is the external speech call: for one
fixed audio payload it is an oracle from language code to an
`Except`-valued transcription.  The configured default language
(`config.speech.sttLanguage`, default `en-US`) is a parameter.  Alongside
the result, the embedding returns the list of language codes passed to
`transcribe`, in call order. -/

structure TranscriptionResult where
  text : String
  language : String
  confidence : ℚ
  deriving DecidableEq

/-- Default of `config.speech.sttLanguage`. -/
def sttLanguageDefault : String := "en-US"

/-- `transcribeWithLanguageDetection(audioBuffer)`: try the configured
default language first; when its confidence is below 0.7, try `es-ES` and
keep the alternative result only when its confidence is strictly higher.
Errors of either call propagate (the catch block rethrows). -/
def transcribeWithLanguageDetection
    (transcribe : String → Except Err TranscriptionResult)
    (sttLanguage : String) :
    Except Err TranscriptionResult × List String :=
  match transcribe sttLanguage with
  | .error e => (.error e, [sttLanguage])
  | .ok result =>
      if result.confidence < 7/10 then
        match transcribe "es-ES" with
        | .error e => (.error e, [sttLanguage, "es-ES"])
        | .ok alternativeResult =>
            (.ok (if alternativeResult.confidence > result.confidence
                  then alternativeResult else result),
              [sttLanguage, "es-ES"])
      else
        (.ok result, [sttLanguage])

/-- C6: the first `transcribe` call uses the configured default language;
a second call — with the fixed alternate `es-ES` — happens exactly when the
first confidence is below 0.7; at most two calls are made in total; and the
returned transcription is one of the two results, carrying the higher
(maximal) confidence of the calls made. -/
theorem transcribeWithLanguageDetection_spec
    (transcribe : String → Except Err TranscriptionResult) (lang : String) :
    (transcribeWithLanguageDetection transcribe lang).2.length ≤ 2 ∧
    (transcribeWithLanguageDetection transcribe lang).2.head? = some lang ∧
    (∀ r1, transcribe lang = .ok r1 → ¬ r1.confidence < 7/10 →
      transcribeWithLanguageDetection transcribe lang = (.ok r1, [lang])) ∧
    (∀ r1, transcribe lang = .ok r1 → r1.confidence < 7/10 →
      (transcribeWithLanguageDetection transcribe lang).2 = [lang, "es-ES"]) ∧
    (∀ r1 r2, transcribe lang = .ok r1 → transcribe "es-ES" = .ok r2 →
      r1.confidence < 7/10 →
      ((transcribeWithLanguageDetection transcribe lang).1 = .ok r1 ∨
       (transcribeWithLanguageDetection transcribe lang).1 = .ok r2) ∧
      (∀ r, (transcribeWithLanguageDetection transcribe lang).1 = .ok r →
        r.confidence = max r1.confidence r2.confidence)) := by
  refine ⟨?_, ?_, ?_, ?_, ?_⟩
  · cases h1 : transcribe lang with
    | error e => simp [transcribeWithLanguageDetection, h1]
    | ok r1 =>
        by_cases hc : r1.confidence < 7/10
        · cases h2 : transcribe "es-ES" with
          | error e => simp [transcribeWithLanguageDetection, h1, hc, h2]
          | ok r2 => simp [transcribeWithLanguageDetection, h1, hc, h2]
        · simp [transcribeWithLanguageDetection, h1, hc]
  · cases h1 : transcribe lang with
    | error e => simp [transcribeWithLanguageDetection, h1]
    | ok r1 =>
        by_cases hc : r1.confidence < 7/10
        · cases h2 : transcribe "es-ES" with
          | error e => simp [transcribeWithLanguageDetection, h1, hc, h2]
          | ok r2 => simp [transcribeWithLanguageDetection, h1, hc, h2]
        · simp [transcribeWithLanguageDetection, h1, hc]
  · intro r1 h1 hc
    simp [transcribeWithLanguageDetection, h1, hc]
  · intro r1 h1 hc
    cases h2 : transcribe "es-ES" with
    | error e => simp [transcribeWithLanguageDetection, h1, hc, h2]
    | ok r2 => simp [transcribeWithLanguageDetection, h1, hc, h2]
  · intro r1 r2 h1 h2 hc
    by_cases hgt : r2.confidence > r1.confidence
    · constructor
      · right
        simp [transcribeWithLanguageDetection, h1, hc, h2, hgt]
      · intro r hr
        simp only [transcribeWithLanguageDetection, h1, hc, if_true, h2, hgt] at hr
        have hrr : r2 = r := by
          simpa [hc, hgt] using hr
        rw [← hrr, max_eq_right (le_of_lt hgt)]
    · constructor
      · left
        simp [transcribeWithLanguageDetection, h1, hc, h2, hgt]
      · intro r hr
        simp only [transcribeWithLanguageDetection, h1, hc, if_true, h2, hgt] at hr
        have hrr : r1 = r := by
          simpa [hc, hgt] using hr
        rw [← hrr, max_eq_left (not_lt.mp hgt)]

/-- A concrete speech oracle: low confidence in the default language, higher
confidence in Spanish. -/
def speechOracleExample : String → Except Err TranscriptionResult :=
  fun languageCode =>
    if languageCode == "es-ES" then .ok ⟨"hola", "es-ES", 9/10⟩
    else .ok ⟨"uh", "en-US", 1/2⟩

/-- Witness for C6: with a 0.5-confidence first result the second call is
made and the 0.9-confidence Spanish result, the maximum, is returned. -/
theorem transcribeWithLanguageDetection_spec_witness :
    ((transcribeWithLanguageDetection speechOracleExample "en-US").1 =
        .ok ⟨"uh", "en-US", 1/2⟩ ∨
      (transcribeWithLanguageDetection speechOracleExample "en-US").1 =
        .ok ⟨"hola", "es-ES", 9/10⟩) ∧
    (∀ r, (transcribeWithLanguageDetection speechOracleExample "en-US").1 = .ok r →
      r.confidence = max ((1:ℚ)/2) (9/10)) :=
  (transcribeWithLanguageDetection_spec speechOracleExample "en-US").2.2.2.2
    ⟨"uh", "en-US", 1/2⟩ ⟨"hola", "es-ES", 9/10⟩ (by simp [speechOracleExample])
    (by simp [speechOracleExample]) (by norm_num)

/-! ## Outbound retry (src/services/whatsappClient.js, sendMessageWithRetry)

`sendTextMessage(to, message)` is the delivery attempt; for one fixed
recipient and body the attempt is an oracle from the attempt number to an
`Except`-valued delivery receipt (Twilio message `sid`).  The `for` loop
`for (attempt = 1; attempt <= retries; attempt++)` is embedded with its
remaining iteration count as structural fuel: from attempt number `a` with
`a ≤ retries` exactly `retries + 1 - a` iterations remain.  With zero
iterations left the loop falls through and the JavaScript function returns
`undefined`, modelled as `none`.  The list records the attempt numbers on
which a delivery attempt was made, in order. -/

/-- One loop iteration of `sendMessageWithRetry`: try the attempt; rethrow on
the last attempt (`attempt === retries`); otherwise back off and continue. -/
def sendMessageWithRetryGo (send : Nat → Except Err String) (retries : Nat) :
    Nat → Nat → Option (Except Err String) × List Nat
  | _, 0 => (none, [])
  | attempt, fuel + 1 =>
      match send attempt with
      | .ok response => (some (.ok response), [attempt])
      | .error e =>
          if attempt = retries then (some (.error e), [attempt])
          else
            let next := sendMessageWithRetryGo send retries (attempt + 1) fuel
            (next.1, attempt :: next.2)

/-- Default of the `retries` parameter. -/
def defaultRetries : Nat := 3

/-- `sendMessageWithRetry(to, message, retries)`: the loop starts at attempt
1 with `retries` iterations available. -/
def sendMessageWithRetry (send : Nat → Except Err String) (retries : Nat) :
    Option (Except Err String) × List Nat :=
  sendMessageWithRetryGo send retries 1 retries

theorem sendMessageWithRetryGo_spec (send : Nat → Except Err String)
    (retries : Nat) :
    ∀ fuel attempt, fuel = retries + 1 - attempt → 1 ≤ attempt →
      attempt ≤ retries →
      (sendMessageWithRetryGo send retries attempt fuel).1.isSome = true ∧
      (sendMessageWithRetryGo send retries attempt fuel).2.length ≤ fuel ∧
      (∀ r, (sendMessageWithRetryGo send retries attempt fuel).1 = some (.ok r) →
        ∃ k, attempt ≤ k ∧ k ≤ retries ∧ send k = .ok r ∧
          ∀ j, attempt ≤ j → j < k → ∃ e, send j = .error e) ∧
      (∀ e, (sendMessageWithRetryGo send retries attempt fuel).1 =
          some (.error e) →
        send retries = .error e ∧
          ∀ j, attempt ≤ j → j ≤ retries → ∃ e', send j = .error e') := by
  intro fuel
  induction fuel with
  | zero =>
      intro attempt hfuel h1 hle
      omega
  | succ fuel ih =>
      intro attempt hfuel h1 hle
      cases hsend : send attempt with
      | ok r =>
          refine ⟨?_, ?_, ?_, ?_⟩ <;>
            simp only [sendMessageWithRetryGo, hsend]
          · rfl
          · simp
          · intro r' hr'
            simp only [Option.some.injEq, Except.ok.injEq] at hr'
            exact ⟨attempt, le_refl attempt, hle, hr' ▸ hsend,
              fun j hj1 hj2 => absurd (lt_of_le_of_lt hj1 hj2) (lt_irrefl _)⟩
          · intro e he
            simp at he
      | error e =>
          by_cases hlast : attempt = retries
          · have hred : sendMessageWithRetryGo send retries attempt (fuel + 1) =
                (some (.error e), [attempt]) := by
              simp only [sendMessageWithRetryGo, hsend]
              rw [if_pos hlast]
            refine ⟨?_, ?_, ?_, ?_⟩ <;> rw [hred]
            · rfl
            · simp
            · intro r hr
              simp at hr
            · intro e' he'
              simp only [Option.some.injEq, Except.error.injEq] at he'
              subst he'
              refine ⟨hlast ▸ hsend, fun j hj1 hj2 => ?_⟩
              have : j = retries := by omega
              exact ⟨e, this ▸ hlast ▸ hsend⟩
          · have hfuel' : fuel = retries + 1 - (attempt + 1) := by omega
            have h1' : 1 ≤ attempt + 1 := by omega
            have hle' : attempt + 1 ≤ retries := by omega
            obtain ⟨ihsome, ihlen, ihok, iherr⟩ := ih (attempt + 1) hfuel' h1' hle'
            refine ⟨?_, ?_, ?_, ?_⟩ <;>
              simp only [sendMessageWithRetryGo, hsend, hlast, if_false]
            · exact ihsome
            · simpa using Nat.succ_le_succ ihlen
            · intro r hr
              obtain ⟨k, hk1, hk2, hk3, hk4⟩ := ihok r hr
              refine ⟨k, by omega, hk2, hk3, fun j hj1 hj2 => ?_⟩
              by_cases hj : j = attempt
              · exact ⟨e, hj ▸ hsend⟩
              · exact hk4 j (by omega) hj2
            · intro e' he'
              obtain ⟨hlastSend, hall⟩ := iherr e' he'
              refine ⟨hlastSend, fun j hj1 hj2 => ?_⟩
              by_cases hj : j = attempt
              · exact ⟨e, hj ▸ hsend⟩
              · exact hall j (by omega) hj2

/-- C8: for every delivery oracle and every positive attempt bound `n + 1`,
the retrying send makes at most `n + 1` attempts; it always terminates with
a definite outcome; a successful outcome is the receipt of the first
successful attempt (all earlier attempts failed); and a failing outcome
propagates the error of the final attempt, with every attempt up to the
bound having failed. -/
theorem sendMessageWithRetry_spec (send : Nat → Except Err String) (n : Nat) :
    (sendMessageWithRetry send (n + 1)).1.isSome = true ∧
    (sendMessageWithRetry send (n + 1)).2.length ≤ n + 1 ∧
    (∀ r, (sendMessageWithRetry send (n + 1)).1 = some (.ok r) →
      ∃ k, 1 ≤ k ∧ k ≤ n + 1 ∧ send k = .ok r ∧
        ∀ j, 1 ≤ j → j < k → ∃ e, send j = .error e) ∧
    (∀ e, (sendMessageWithRetry send (n + 1)).1 = some (.error e) →
      send (n + 1) = .error e ∧
        ∀ j, 1 ≤ j → j ≤ n + 1 → ∃ e', send j = .error e') ∧
    defaultRetries = 3 := by
  have h := sendMessageWithRetryGo_spec send (n + 1) (n + 1) 1 (by omega)
    (le_refl 1) (by omega)
  exact ⟨h.1, h.2.1, h.2.2.1, h.2.2.2, rfl⟩

/-- A concrete delivery oracle: the first attempt fails, the second
succeeds. -/
def deliveryOracleExample : Nat → Except Err String :=
  fun attempt =>
    if attempt = 1 then .error (WhatsAppError "Failed to send message: timeout")
    else .ok "SM001"

/-- Witness for C8: with three allowed attempts against
`deliveryOracleExample`, the returned receipt is that of attempt 2, the
first successful one. -/
theorem sendMessageWithRetry_spec_witness :
    ∃ k, 1 ≤ k ∧ k ≤ 3 ∧ deliveryOracleExample k = .ok "SM001" ∧
      ∀ j, 1 ≤ j → j < k → ∃ e, deliveryOracleExample j = .error e :=
  (sendMessageWithRetry_spec deliveryOracleExample 2).2.2.1 "SM001" (by rfl)

/-! ## Lexical language heuristic (src/services/messageHandler.js, detectLanguage)

`detectLanguage(text)` tests the regex
`\b(hola|gracias|por favor|buenos|días|cómo|está|qué|sí|no)\b` with the `i`
flag.  The embedding follows JavaScript regex semantics: `\b` holds at a
position iff exactly one of the two neighbouring characters is in the word
class `[A-Za-z0-9_]` (a string edge counts as a non-word side); the `i`
flag canonicalizes case, which on the alphabet of this pattern is
lower-casing (ASCII letters plus the accented Spanish capitals).  Texts are
lists of characters; the matcher scans every start position. -/

/-- JavaScript `\w`: ASCII letters, digits and underscore.  The accented
letters á é í ó ú ñ are NOT word characters for `\b`. -/
def isWordChar (c : Char) : Bool :=
  ('a' ≤ c && c ≤ 'z') || ('A' ≤ c && c ≤ 'Z') || ('0' ≤ c && c ≤ '9') || c == '_'

/-- Case canonicalization of the `i` flag, restricted to the characters that
can interact with this pattern: ASCII upper case and the upper-case accented
Spanish letters fold to lower case. -/
def jsLowerChar (c : Char) : Char :=
  if c = 'Á' then 'á' else if c = 'É' then 'é' else if c = 'Í' then 'í'
  else if c = 'Ó' then 'ó' else if c = 'Ú' then 'ú' else if c = 'Ñ' then 'ñ'
  else c.toLower

def lowerList (s : List Char) : List Char :=
  s.map jsLowerChar

def isWordCharOpt : Option Char → Bool
  | none => false
  | some c => isWordChar c

/-- JavaScript `\b` at a position whose left and right neighbouring
characters are `l` and `r` (`none` = string edge). -/
def atBoundary (l r : Option Char) : Bool :=
  isWordCharOpt l != isWordCharOpt r

/-- Match the pattern characters `w` literally against a prefix of `s`;
`some rest` is the remaining suffix. -/
def consume : List Char → List Char → Option (List Char)
  | [], s => some s
  | _ :: _, [] => none
  | c :: w, d :: s => if c == d then consume w s else none

/-- Does alternative `w`, wrapped in `\b...\b`, match at the current
position?  `prev` is the character to the left of the position. -/
def matchWordHere (w : List Char) (prev : Option Char) (s : List Char) : Bool :=
  atBoundary prev s.head? &&
    (match consume w s with
     | none => false
     | some rest => atBoundary w.getLast? rest.head?)

/-- Scan every start position of `s` for a `\b`-delimited match of `w`. -/
def scanWord (w : List Char) (prev : Option Char) : List Char → Bool
  | [] => matchWordHere w prev []
  | c :: cs => matchWordHere w prev (c :: cs) || scanWord w (some c) cs

/-- The alternatives of the Spanish marker pattern, in source order. -/
def spanishMarkers : List (List Char) :=
  ["hola".data, "gracias".data, "por favor".data, "buenos".data, "días".data,
   "cómo".data, "está".data, "qué".data, "sí".data, "no".data]

/-- `spanishPatterns.test(text)`: some alternative matches at some position
of the case-folded text. -/
def spanishTest (s : List Char) : Bool :=
  spanishMarkers.any (fun w => scanWord w none (lowerList s))

/-- `detectLanguage(text)`: `es` when the Spanish marker regex matches,
`en` otherwise. -/
def detectLanguage (text : List Char) : String :=
  if spanishTest text then "es" else "en"

/-! ### Declarative characterization of the matcher -/

/-- The character to the left of the match: the last of the prefix when
nonempty, otherwise the character preceding the scanned suffix. -/
def lastOr (prev : Option Char) (pre : List Char) : Option Char :=
  match pre.getLast? with
  | some c => some c
  | none => prev

/-- Alternative `w` occurs in the case-folded text delimited by JavaScript
word boundaries on both sides. -/
def SpanishWordOccurs (w : List Char) (s : List Char) : Prop :=
  ∃ pre post, lowerList s = pre ++ w ++ post ∧
    atBoundary pre.getLast? w.head? = true ∧
    atBoundary w.getLast? post.head? = true

theorem lastOr_none (pre : List Char) : lastOr none pre = pre.getLast? := by
  unfold lastOr
  cases pre.getLast? <;> rfl

theorem lastOr_cons (prev : Option Char) (c : Char) (pre : List Char) :
    lastOr prev (c :: pre) = lastOr (some c) pre := by
  cases pre with
  | nil => simp [lastOr]
  | cons c2 pre2 =>
      unfold lastOr
      rw [List.getLast?_cons_cons]
      cases h : (c2 :: pre2).getLast? with
      | none => simp at h
      | some d => rfl

theorem consume_eq_some_iff (w : List Char) :
    ∀ s rest, consume w s = some rest ↔ s = w ++ rest := by
  induction w with
  | nil =>
      intro s rest
      simp [consume, eq_comm]
  | cons c w ih =>
      intro s rest
      cases s with
      | nil => simp [consume]
      | cons d ds =>
          by_cases hc : c == d
          · have hcd : c = d := by simpa [beq_iff_eq] using hc
            simp [consume, hc, ih, hcd]
          · have hcd : ¬ c = d := by simpa [beq_iff_eq] using hc
            simp [consume, hc]
            intro h
            exact absurd h.symm hcd

theorem head?_append_of_ne_nil (w post : List Char) (hw : w ≠ []) :
    (w ++ post).head? = w.head? := by
  cases w with
  | nil => exact absurd rfl hw
  | cons c cs => rfl

theorem matchWordHere_iff (w : List Char) (hw : w ≠ []) (prev : Option Char)
    (s : List Char) :
    matchWordHere w prev s = true ↔
      ∃ post, s = w ++ post ∧ atBoundary prev w.head? = true ∧
        atBoundary w.getLast? post.head? = true := by
  cases hcon : consume w s with
  | none =>
      constructor
      · intro h
        simp [matchWordHere, hcon] at h
      · rintro ⟨post, heq, h1, h2⟩
        have : consume w s = some post := (consume_eq_some_iff w s post).mpr heq
        rw [hcon] at this
        cases this
  | some rest =>
      have heq : s = w ++ rest := (consume_eq_some_iff w s rest).mp hcon
      have hhead : s.head? = w.head? := heq ▸ head?_append_of_ne_nil w rest hw
      constructor
      · intro h
        simp only [matchWordHere, hcon, Bool.and_eq_true] at h
        exact ⟨rest, heq, hhead ▸ h.1, h.2⟩
      · rintro ⟨post, hpost, h1, h2⟩
        have : consume w s = some post := (consume_eq_some_iff w s post).mpr hpost
        rw [hcon] at this
        injection this with hre
        subst hre
        simp only [matchWordHere, hcon, Bool.and_eq_true]
        exact ⟨hhead ▸ h1, h2⟩

theorem scanWord_iff (w : List Char) (hw : w ≠ []) :
    ∀ (t : List Char) (prev : Option Char),
      scanWord w prev t = true ↔
        ∃ pre post, t = pre ++ w ++ post ∧
          atBoundary (lastOr prev pre) w.head? = true ∧
          atBoundary w.getLast? post.head? = true := by
  intro t
  induction t with
  | nil =>
      intro prev
      constructor
      · intro h
        rw [scanWord] at h
        obtain ⟨post, heq, h1, h2⟩ := (matchWordHere_iff w hw prev []).mp h
        exact ⟨[], post, by simpa using heq, by simpa [lastOr] using h1, h2⟩
      · rintro ⟨pre, post, heq, h1, h2⟩
        exfalso
        have := heq.symm
        rw [List.append_assoc, List.append_eq_nil] at this
        rcases this with ⟨-, hrest⟩
        rw [List.append_eq_nil] at hrest
        exact hw hrest.1
  | cons c cs ih =>
      intro prev
      rw [scanWord, Bool.or_eq_true]
      constructor
      · rintro (h | h)
        · obtain ⟨post, heq, h1, h2⟩ := (matchWordHere_iff w hw prev (c :: cs)).mp h
          exact ⟨[], post, by simpa using heq, by simpa [lastOr] using h1, h2⟩
        · obtain ⟨pre, post, heq, h1, h2⟩ := (ih (some c)).mp h
          refine ⟨c :: pre, post, by simp [heq], ?_, h2⟩
          rwa [lastOr_cons]
      · rintro ⟨pre, post, heq, h1, h2⟩
        cases pre with
        | nil =>
            left
            apply (matchWordHere_iff w hw prev (c :: cs)).mpr
            exact ⟨post, by simpa using heq, by simpa [lastOr] using h1, h2⟩
        | cons c' pre' =>
            right
            have hc : c' = c ∧ cs = pre' ++ w ++ post := by
              have : c' :: (pre' ++ w ++ post) = c :: cs := by
                simpa using heq.symm
            
              injection this with ha hb
              exact ⟨ha, hb.symm⟩
            apply (ih (some c)).mpr
            refine ⟨pre', post, hc.2, ?_, h2⟩
            rw [← hc.1]
            rwa [lastOr_cons] at h1

theorem spanishMarkers_ne_nil : ∀ w ∈ spanishMarkers, w ≠ [] := by
  decide

theorem spanishTest_iff (s : List Char) :
    spanishTest s = true ↔ ∃ w ∈ spanishMarkers, SpanishWordOccurs w s := by
  rw [spanishTest, List.any_eq_true]
  constructor
  · rintro ⟨w, hmem, hscan⟩
    obtain ⟨pre, post, heq, h1, h2⟩ :=
      (scanWord_iff w (spanishMarkers_ne_nil w hmem) (lowerList s) none).mp hscan
    exact ⟨w, hmem, pre, post, heq, by rwa [lastOr_none] at h1, h2⟩
  · rintro ⟨w, hmem, pre, post, heq, h1, h2⟩
    refine ⟨w, hmem, ?_⟩
    apply (scanWord_iff w (spanishMarkers_ne_nil w hmem) (lowerList s) none).mpr
    exact ⟨pre, post, heq, by rwa [lastOr_none], h2⟩

/-! ### The claim's reading: containing a marker as an ordinary word

In the spec's reading, a text "contains a marker word" when the marker
stands in the (case-folded) text delimited by characters that are not
letters — where letters include the accented Spanish ones — or by the text
edges.  This second, clearly named definition follows the spec's words and
is compared against the source-derived matcher. -/

/-- Letters in the ordinary sense relevant here: the ASCII word characters
together with the accented Spanish lower-case letters. -/
def isSpanishLetter (c : Char) : Bool :=
  isWordChar c || c == 'á' || c == 'é' || c == 'í' || c == 'ó' || c == 'ú' || c == 'ñ'

def notSpanishLetterOpt : Option Char → Bool
  | none => true
  | some c => !isSpanishLetter c

/-- Does `w` stand at the current position as an ordinary word (delimited by
non-letters or edges)? -/
def occursHere (w : List Char) (prev : Option Char) (s : List Char) : Bool :=
  notSpanishLetterOpt prev &&
    (match consume w s with
     | none => false
     | some rest => notSpanishLetterOpt rest.head?)

/-- Does `w` occur anywhere in `s` as an ordinary word? -/
def occursAsWord (w : List Char) (prev : Option Char) : List Char → Bool
  | [] => occursHere w prev []
  | c :: cs => occursHere w prev (c :: cs) || occursAsWord w (some c) cs

/-- The spec's notion: the case-folded text contains some marker of the
fixed Spanish set standing as an ordinary word. -/
def containsMarkerWord (s : List Char) : Bool :=
  spanishMarkers.any (fun w => occursAsWord w none (lowerList s))

/-- Counterexample for C7: the text `sí` IS one of the fixed Spanish marker
words (so it certainly contains one, under any reading of containment), yet
`detectLanguage` returns `en`, not `es`: JavaScript `\b` after the final
`í` — not an ASCII word character — requires a following word character,
which the end of the text does not supply.  Case-insensitive containment of
`hola`, by contrast, does classify as `es`. -/
theorem detectLanguage_claim_counterexample :
    "sí".data ∈ spanishMarkers ∧
    containsMarkerWord "sí".data = true ∧
    detectLanguage "sí".data = "en" ∧
    detectLanguage "HOLA".data = "es" := by
  refine ⟨?_, ?_, ?_, ?_⟩ <;> decide

/-- C7 (amended): the heuristic returns `es` exactly when some marker of the
fixed Spanish set occurs in the case-folded text delimited by JavaScript
word boundaries (`\b` over the ASCII word class, so a marker ending in an
accented letter needs a following ASCII word character rather than a word
end), and `en` in every other case; classification is case-insensitive:
texts with equal case-foldings classify identically. -/
theorem detectLanguage_amended_spec (s t : List Char) :
    (detectLanguage s = "es" ∨ detectLanguage s = "en") ∧
    (detectLanguage s = "es" ↔ ∃ w ∈ spanishMarkers, SpanishWordOccurs w s) ∧
    (lowerList s = lowerList t → detectLanguage s = detectLanguage t) := by
  refine ⟨?_, ?_, ?_⟩
  · unfold detectLanguage
    cases spanishTest s <;> simp
  · unfold detectLanguage
    cases h : spanishTest s with
    | true => simpa using (spanishTest_iff s).mp h
    | false =>
        simp only [if_false, Bool.false_eq_true]
        constructor
        · intro he
          exact absurd he (by decide)
        · intro hocc
          have := (spanishTest_iff s).mpr hocc
          rw [h] at this
          cases this
  · intro hlow
    unfold detectLanguage
    have : spanishTest s = spanishTest t := by
      unfold spanishTest
      rw [hlow]
    rw [this]

/-- Witness for C7 (amended): `HOLA` and `hola` have equal case-foldings
and classify identically. -/
theorem detectLanguage_amended_spec_witness :
    detectLanguage "HOLA".data = detectLanguage "hola".data :=
  (detectLanguage_amended_spec "HOLA".data "hola".data).2.2 (by decide)

/-! ## Message orchestrator (src/services/messageHandler.js)

The inbound Twilio webhook record carries the sender (`From`), optional
body text, the attachment count as the string field `NumMedia`, the message
sid and the first media URL.  The five external adapters the orchestrator
drives are an oracle structure of `Except`-valued functions; alongside its
result every handler returns the ordered trace of adapter invocations it
performed, so "which adapters ran" is provable.  `cleanupTempFile` swallows
its own errors internally (the adapter catch block only warns), so it
appears in the trace without a fallible result. -/

structure TwilioMessage where
  From : String
  Body : Option String
  NumMedia : Option String
  MessageSid : String
  MediaUrl0 : String
  deriving DecidableEq, Repr

/-- JavaScript `parseInt` restricted to its behaviour on the inputs at hand:
the value of the leading run of decimal digits, `none` (NaN) when there is
none.  (Sign, whitespace and radix handling never arise for Twilio's
`NumMedia` values.) -/
def parseIntJS (s : String) : Option Nat :=
  let ds := s.data.takeWhile (fun c => c.isDigit)
  if ds.isEmpty then none
  else some (ds.foldl (fun n c => n * 10 + (c.toNat - '0'.toNat)) 0)

/-- Truthiness of `NumMedia && parseInt(NumMedia) > 0`: an absent or empty
string is falsy, and `NaN > 0` is false. -/
def numMediaTruthyPositive (numMedia : Option String) : Bool :=
  match numMedia with
  | none => false
  | some s =>
      s != "" &&
        (match parseIntJS s with
         | some k => decide (k > 0)
         | none => false)

/-- Truthiness of the `Body` field: present and nonempty. -/
def bodyTruthy : Option String → Bool
  | none => false
  | some s => s != ""

/-- The structured reply `detectIntent` returns (response text and matched
intent name). -/
structure AgentReply where
  text : String
  intent : String
  deriving DecidableEq, Repr

/-- One adapter invocation, with the arguments that identify it. -/
inductive Call where
  | processVoiceNote (mediaUrl messageSid : String)
  | transcribeDetect
  | detectIntent (text userId languageCode : String)
  | synthesizeToFile (text languageCode name : String)
  | sendText (recipient body : String)
  | cleanupTempFile (filename : String)
  deriving DecidableEq, Repr

/-- The external adapters, as oracles. -/
structure Adapters where
  processVoiceNote : String → String → Except Err (List Nat)
  transcribeWithLanguageDetection : List Nat → Except Err TranscriptionResult
  detectIntent : String → String → String → Except Err AgentReply
  synthesizeToFile : String → String → String → Except Err String
  sendTextMessage : String → String → Except Err String

/-- Sequencing of `await`ed calls: an exception aborts the rest of the
sequence, and the trace keeps the calls made so far. -/
def step {α β : Type} (x : Except Err α × List Call)
    (f : α → Except Err β × List Call) : Except Err β × List Call :=
  match x with
  | (.error e, trace) => (.error e, trace)
  | (.ok a, trace) =>
      let y := f a
      (y.1, trace ++ y.2)

/-- A single adapter call: its result together with its trace entry. -/
def callStep {α : Type} (c : Call) (r : Except Err α) : Except Err α × List Call :=
  (r, [c])

/-- `mapLanguageCode(languageCode)`: the fixed Dialogflow-to-TTS table with
default `en-US`. -/
def mapLanguageCode (languageCode : String) : String :=
  if languageCode == "en" then "en-US"
  else if languageCode == "en-US" then "en-US"
  else if languageCode == "es" then "es-ES"
  else if languageCode == "es-ES" then "es-ES"
  else if languageCode == "es-US" then "es-US"
  else "en-US"

/-- `handleTextMessage(message)`: detect the language, query Dialogflow,
send the reply text back. -/
def handleTextMessage (A : Adapters) (m : TwilioMessage) :
    Except Err Unit × List Call :=
  let body := m.Body.getD ""
  let languageCode := detectLanguage body.data
  step (callStep (.detectIntent body m.From languageCode)
      (A.detectIntent body m.From languageCode)) fun response =>
  step (callStep (.sendText m.From response.text)
      (A.sendTextMessage m.From response.text)) fun _ =>
  (.ok (), [])

/-- The transcription-confirmation message sent before the reply. -/
def confirmationMessage (t : String) : String :=
  "🎤 I heard: \"" ++ t ++ "\"\n\nLet me respond..."

/-- `handleVoiceMessage(message)`: download and validate the audio,
transcribe with language detection, confirm the transcription to the user,
query Dialogflow, synthesize a voice reply (currently sent as text), and
clean up the scratch file. -/
def handleVoiceMessage (A : Adapters) (m : TwilioMessage) :
    Except Err Unit × List Call :=
  step (callStep (.processVoiceNote m.MediaUrl0 m.MessageSid)
      (A.processVoiceNote m.MediaUrl0 m.MessageSid)) fun audioBuffer =>
  step (callStep .transcribeDetect
      (A.transcribeWithLanguageDetection audioBuffer)) fun transcription =>
  step (callStep (.sendText m.From (confirmationMessage transcription.text))
      (A.sendTextMessage m.From (confirmationMessage transcription.text))) fun _ =>
  step (callStep (.detectIntent transcription.text m.From transcription.language)
      (A.detectIntent transcription.text m.From transcription.language)) fun response =>
  step (callStep (.synthesizeToFile response.text
        (mapLanguageCode transcription.language) ("response_" ++ m.MessageSid))
      (A.synthesizeToFile response.text
        (mapLanguageCode transcription.language) ("response_" ++ m.MessageSid))) fun _ =>
  step (callStep (.sendText m.From response.text)
      (A.sendTextMessage m.From response.text)) fun _ =>
  (.ok (), [.cleanupTempFile (m.MessageSid ++ ".ogg")])

/-- The `try` block of `handleIncomingMessage`: classify and dispatch. -/
def innerHandle (A : Adapters) (m : TwilioMessage) : Except Err Unit × List Call :=
  if numMediaTruthyPositive m.NumMedia then handleVoiceMessage A m
  else if bodyTruthy m.Body then handleTextMessage A m
  else (.error (ValidationError "Invalid message format"), [])

/-- The user-facing error text: operational errors show their message, any
other failure a generic apology. -/
def errorUserMessage (error : Err) : String :=
  if error.isOperational then "❌ " ++ error.message
  else "❌ I'm having trouble processing your message. Please try again later."

/-- `sendErrorMessage(to, error)`: one send attempt whose own failure is
caught and only logged. -/
def sendErrorMessage (A : Adapters) (recipient : String) (error : Err) :
    Except Err Unit × List Call :=
  match A.sendTextMessage recipient (errorUserMessage error) with
  | .ok _ => (.ok (), [.sendText recipient (errorUserMessage error)])
  | .error _ => (.ok (), [.sendText recipient (errorUserMessage error)])

/-- `handleIncomingMessage(message)`: the `try`/`catch` recovery boundary —
any failure of the dispatched handler is converted into a best-effort
apology send to the originating sender. -/
def handleIncomingMessage (A : Adapters) (m : TwilioMessage) :
    Except Err Unit × List Call :=
  match innerHandle A m with
  | (.ok _, trace) => (.ok (), trace)
  | (.error e, trace) =>
      let apology := sendErrorMessage A m.From e
      (apology.1, trace ++ apology.2)

/-- The attachment count an inbound message declares: the numeric value of
`NumMedia` (0 when absent or non-numeric). -/
def attachmentCount (numMedia : Option String) : Nat :=
  match numMedia with
  | none => 0
  | some s => (parseIntJS s).getD 0

theorem numMediaTruthyPositive_iff (numMedia : Option String) :
    numMediaTruthyPositive numMedia = true ↔ attachmentCount numMedia > 0 := by
  cases numMedia with
  | none => simp [numMediaTruthyPositive, attachmentCount]
  | some s =>
      by_cases hs : s = ""
      · subst hs
        simp [numMediaTruthyPositive, attachmentCount, parseIntJS]
      · cases hp : parseIntJS s with
        | none => simp [numMediaTruthyPositive, attachmentCount, hp, hs]
        | some k => simp [numMediaTruthyPositive, attachmentCount, hp, hs, bne_iff_ne]

/-- C1: `handleIncomingMessage` never propagates an exception: its result is
always `ok`.  When the dispatched handler succeeds the pass is exactly that
delivery; when it fails with any error, exactly one apology send to the
originating sender is appended to the pass, and `sendErrorMessage` itself
swallows a failure of that send (it returns `ok` whatever the outbound
adapter does). -/
theorem handleIncomingMessage_recovery_spec (A : Adapters) (m : TwilioMessage) :
    (handleIncomingMessage A m).1 = .ok () ∧
    (∀ recipient e, (sendErrorMessage A recipient e).1 = .ok ()) ∧
    ((innerHandle A m).1 = .ok () →
      handleIncomingMessage A m = (.ok (), (innerHandle A m).2)) ∧
    (∀ e, (innerHandle A m).1 = .error e →
      (handleIncomingMessage A m).2 =
        (innerHandle A m).2 ++ [Call.sendText m.From (errorUserMessage e)]) := by
  have hsend : ∀ recipient e, (sendErrorMessage A recipient e).1 = .ok () := by
    intro recipient e
    unfold sendErrorMessage
    cases A.sendTextMessage recipient (errorUserMessage e) <;> rfl
  have hsendTrace : ∀ recipient e,
      (sendErrorMessage A recipient e).2 =
        [Call.sendText recipient (errorUserMessage e)] := by
    intro recipient e
    unfold sendErrorMessage
    cases A.sendTextMessage recipient (errorUserMessage e) <;> rfl
  refine ⟨?_, hsend, ?_, ?_⟩
  · cases hin : innerHandle A m with
    | mk res trace =>
        cases res with
        | ok u => simp [handleIncomingMessage, hin]
        | error e => simp [handleIncomingMessage, hin, hsend m.From e]
  · intro hok
    cases hin : innerHandle A m with
    | mk res trace =>
        rw [hin] at hok
        cases res with
        | ok u => cases u; simp [handleIncomingMessage, hin]
        | error e => cases hok
  · intro e he
    cases hin : innerHandle A m with
    | mk res trace =>
        rw [hin] at he
        cases res with
        | ok u => cases he
        | error e' =>
            injection he with he'
            subst he'
            simp [handleIncomingMessage, hin, hsendTrace]

/-- A well-behaved set of adapters for concrete runs: every external call
succeeds. -/
def adaptersExample : Adapters :=
  ⟨fun _ _ => .ok [1],
   fun _ => .ok ⟨"hello teacher", "en-US", 1⟩,
   fun _ _ _ => .ok ⟨"Hi! Ready to practice?", "Welcome"⟩,
   fun _ _ name => .ok name,
   fun _ _ => .ok "SM100"⟩

/-- A plain text inbound message with zero attachments. -/
def msgTextExample : TwilioMessage :=
  ⟨"whatsapp:+15550001111", some "Hello", some "0", "SID1", ""⟩

/-- An inbound message with empty body and zero attachments. -/
def msgInvalidExample : TwilioMessage :=
  ⟨"whatsapp:+15550001111", none, some "0", "SID2", ""⟩

/-- Witness for C1: with all adapters succeeding on a text message, the pass
is exactly the successful delivery of the handler's trace. -/
theorem handleIncomingMessage_recovery_spec_witness :
    handleIncomingMessage adaptersExample msgTextExample =
      (.ok (), (innerHandle adaptersExample msgTextExample).2) :=
  (handleIncomingMessage_recovery_spec adaptersExample msgTextExample).2.2.1 (by rfl)

/-- C2: classification order — a positive attachment count takes the voice
path regardless of the body; otherwise a truthy body takes the text path;
otherwise the pass raises `ValidationError "Invalid message format"` and
the recovery boundary performs exactly one apology send (carrying the
validation message, since the error is operational) to the originating
sender, invoking no adapter other than outbound messaging. -/
theorem handleIncomingMessage_classification_spec (A : Adapters) (m : TwilioMessage) :
    (attachmentCount m.NumMedia > 0 → innerHandle A m = handleVoiceMessage A m) ∧
    (attachmentCount m.NumMedia = 0 → bodyTruthy m.Body = true →
      innerHandle A m = handleTextMessage A m) ∧
    (attachmentCount m.NumMedia = 0 → bodyTruthy m.Body = false →
      innerHandle A m = (.error (ValidationError "Invalid message format"), []) ∧
      handleIncomingMessage A m =
        (.ok (), [Call.sendText m.From "❌ Invalid message format"])) := by
  refine ⟨?_, ?_, ?_⟩
  · intro hpos
    have : numMediaTruthyPositive m.NumMedia = true :=
      (numMediaTruthyPositive_iff m.NumMedia).mpr hpos
    simp [innerHandle, this]
  · intro hzero hbody
    have : numMediaTruthyPositive m.NumMedia = false := by
      cases hnm : numMediaTruthyPositive m.NumMedia with
      | false => rfl
      | true =>
          have := (numMediaTruthyPositive_iff m.NumMedia).mp hnm
          omega
    simp [innerHandle, this, hbody]
  · intro hzero hbody
    have hnm : numMediaTruthyPositive m.NumMedia = false := by
      cases hnm : numMediaTruthyPositive m.NumMedia with
      | false => rfl
      | true =>
          have := (numMediaTruthyPositive_iff m.NumMedia).mp hnm
          omega
    have hin : innerHandle A m =
        (.error (ValidationError "Invalid message format"), []) := by
      simp [innerHandle, hnm, hbody]
    refine ⟨hin, ?_⟩
    have hmsg : errorUserMessage (ValidationError "Invalid message format") =
        "❌ Invalid message format" := by decide
    simp only [handleIncomingMessage, hin]
    unfold sendErrorMessage
    rw [hmsg]
    cases adaptersSend : A.sendTextMessage m.From "❌ Invalid message format" <;> simp

/-- Witness for C2: an inbound message with no body and `NumMedia = "0"`
takes the failure path: a `ValidationError` and exactly one apology send
carrying the validation message. -/
theorem handleIncomingMessage_classification_spec_witness :
    innerHandle adaptersExample msgInvalidExample =
      (.error (ValidationError "Invalid message format"), []) ∧
    handleIncomingMessage adaptersExample msgInvalidExample =
      (.ok (), [Call.sendText msgInvalidExample.From "❌ Invalid message format"]) :=
  (handleIncomingMessage_classification_spec adaptersExample msgInvalidExample).2.2
    (by rfl) (by rfl)

end WhatsTutor
